import Mathlib

/-!
Verification development for the query-safety and conversation-state core of
an NL2SQL backend (schema normalizer, value caster, DML validator/rewriter,
and the per-user conversation state machine).

The Python source is shallowly embedded: Python values that flow through the
duck-typed schema normalizer are modelled by `PyVal`; functions that can raise
are modelled in `Except PyErr`; the regex extractions of the DML validator are
modelled by dedicated backtracking matchers that mirror the concrete patterns
used in the source (`re.match`/`re.search` with IGNORECASE and, where the
source requests it, DOTALL).  ASCII case conversion stands in for Python's
Unicode case conversion, and the decimal text emitted for the float branch of
the value caster abstracts Python's shortest round-trip float repr (no claim
depends on that text).
-/

set_option maxRecDepth 4000

/-! ### Character and list-of-char utilities (Python string semantics) -/

/-- Python's `str.strip()` whitespace set: space, \t, \n, \r, \x0b, \x0c. -/
def isPySpace (c : Char) : Bool :=
  c = ' ' || c = Char.ofNat 9 || c = Char.ofNat 10 || c = Char.ofNat 13 ||
  c = Char.ofNat 11 || c = Char.ofNat 12

/-- The single-quote character, written via its code point. -/
def sqChar : Char := Char.ofNat 39

/-- The double-quote character, written via its code point. -/
def dqChar : Char := Char.ofNat 34

/-- The single-quote character as a string (used to build SQL literals). -/
def sqS : String := String.mk [sqChar]

/-- `str.strip()` on a char list: drop whitespace from both ends. -/
def pyStripL (l : List Char) : List Char :=
  (l.dropWhile isPySpace).rdropWhile isPySpace

/-- `str.strip()` on a `String`. -/
def pyStrip (s : String) : String := String.mk (pyStripL s.data)

/-- Strip a given character from both ends (models `str.strip("'")` etc.). -/
def stripCharL (ch : Char) (l : List Char) : List Char :=
  (l.dropWhile (· = ch)).rdropWhile (· = ch)

/-- `value.strip("'").strip('"')` from the value caster. -/
def stripQuotes (s : String) : String :=
  String.mk (stripCharL dqChar (stripCharL sqChar s.data))

/-- ASCII lower-casing of a char list (stands in for Python `str.lower()`). -/
def toLowerList (l : List Char) : List Char := l.map Char.toLower

/-- ASCII upper-casing of a char list (stands in for Python `str.upper()`). -/
def toUpperList (l : List Char) : List Char := l.map Char.toUpper

/-- `str.lower()` on `String`. -/
def toLowerStr (s : String) : String := String.mk (toLowerList s.data)

/-- `str.upper()` on `String`. -/
def toUpperStr (s : String) : String := String.mk (toUpperList s.data)

/-- Split a char list on a separator character; Python `"".split(",") = [""]`,
so the empty list yields one empty part. -/
def splitOnChar (sep : Char) : List Char → List (List Char)
  | [] => [[]]
  | c :: rest =>
    let r := splitOnChar sep rest
    if c = sep then [] :: r
    else
      match r with
      | h :: t => (c :: h) :: t
      | [] => [[c]]

/-- Split at the first occurrence of a character: models `s.split(ch, 1)`
when the character occurs (callers check occurrence first). -/
def splitOnceAt (sep : Char) : List Char → List Char × List Char
  | [] => ([], [])
  | c :: rest =>
    if c = sep then ([], rest)
    else
      let (a, b) := splitOnceAt sep rest
      (c :: a, b)

/-- Substring occurrence (`pat in s` in Python). -/
def hasSub (pat : List Char) : List Char → Bool
  | [] => pat.isEmpty
  | c :: rest => pat.isPrefixOf (c :: rest) || hasSub pat rest

/-- Index of the first occurrence of a substring (`s.find(pat)` when found). -/
def findSub (pat : List Char) : List Char → Option Nat
  | [] => if pat.isEmpty then some 0 else Option.none
  | c :: rest =>
    if pat.isPrefixOf (c :: rest) then some 0
    else (findSub pat rest).map (· + 1)

/-- Join a list of strings with a separator (`sep.join(xs)`). -/
def strJoin (sep : String) : List String → String
  | [] => ""
  | [x] => x
  | x :: rest => x ++ sep ++ strJoin sep rest

/-- Join char lists with a single separator character. -/
def joinChar (sep : Char) : List (List Char) → List Char
  | [] => []
  | [x] => x
  | x :: rest => x ++ sep :: joinChar sep rest

/-- Case-insensitive literal match: consumes the pattern from the front of the
input, returning the remainder (models a regex literal under IGNORECASE). -/
def matchCI : List Char → List Char → Option (List Char)
  | [], cs => some cs
  | _ :: _, [] => Option.none
  | p :: ps, c :: cs =>
    if Char.toLower c = Char.toLower p then matchCI ps cs else Option.none

/-- Case-insensitive prefix test (`s.upper().startswith(PAT)` for an ASCII
pattern is equivalent to this). -/
def startsWithCI (pat : String) (cs : List Char) : Bool :=
  (matchCI pat.data cs).isSome

/-- `s.startswith((p1, p2, ...))` after a case fold. -/
def startsWithAnyCI (pats : List String) (cs : List Char) : Bool :=
  pats.any (fun p => startsWithCI p cs)

/-- Regex `\s+` (at least one whitespace, maximal munch; safe here because in
every pattern of the source the token after `\s+` never starts with
whitespace). Returns the rest of the input. -/
def ws1 : List Char → Option (List Char)
  | [] => Option.none
  | c :: rest => if isPySpace c then some (rest.dropWhile isPySpace) else Option.none

/-- Regex `\s*`. -/
def wsStar (cs : List Char) : List Char := cs.dropWhile isPySpace

/-- Regex `\w` (ASCII approximation of Python's Unicode word chars). -/
def isWordChar (c : Char) : Bool := c.isAlphanum || c = '_'

/-- Regex `\w+` (maximal munch; safe in `INSERT\s+INTO\s+\w+\s*\(` because
`\w`, `\s` and `(` are disjoint). Returns the rest of the input. -/
def word1 (cs : List Char) : Option (List Char) :=
  let w := cs.takeWhile isWordChar
  if w.isEmpty then Option.none else some (cs.drop w.length)

/-- Regex `[^\s(]+`: a maximal nonempty token of non-space, non-paren chars.
Returns the token and the rest. -/
def tok1 (cs : List Char) : Option (List Char × List Char) :=
  let w := cs.takeWhile (fun c => !isPySpace c && c ≠ '(')
  if w.isEmpty then Option.none else some (w, cs.drop w.length)

/-- Non-greedy `(.*?)\)` followed by a continuation (regex backtracking: the
group grows one char at a time; `.` does not match a newline because the
source compiles the INSERT pattern without DOTALL). -/
def ngUpToParen {α : Type} (k : List Char → Option α) : List Char → Option (List Char × α)
  | [] => Option.none
  | c :: cs =>
    if c = ')' then
      match k cs with
      | some a => some ([], a)
      | Option.none => (ngUpToParen k cs).map (fun p => (c :: p.1, p.2))
    else if c = Char.ofNat 10 then Option.none
    else (ngUpToParen k cs).map (fun p => (c :: p.1, p.2))

/-! ### Python values, truthiness and repr -/

/-- Dynamically-typed Python values as they appear in raw schema documents. -/
inductive PyVal where
  | none
  | bool (b : Bool)
  | int (n : Int)
  | str (s : String)
  | list (xs : List PyVal)
  | dict (kvs : List (PyVal × PyVal))

/-- Exceptions the embedded code can raise. -/
inductive PyErr where
  | typeError
  | attributeError
  | indexError
deriving DecidableEq

/-- Python truthiness (`bool(x)`). -/
def truthy : PyVal → Bool
  | .none => false
  | .bool b => b
  | .int n => n ≠ 0
  | .str s => s ≠ ""
  | .list xs => !xs.isEmpty
  | .dict kvs => !kvs.isEmpty

/-- `x is None`. -/
def isNoneV : PyVal → Bool
  | .none => true
  | _ => false

/-- Is the value a `str`? -/
def isStrV : PyVal → Bool
  | .str _ => true
  | _ => false

/-- Is the value a `dict`? -/
def isDictV : PyVal → Bool
  | .dict _ => true
  | _ => false

/-- Python `==` between a dict key and a string: only an equal string
compares equal (no value of the raw-schema fragment other than a `str` can
equal a `str`). Every dict lookup performed by the source uses a string
key, so this comparison is all the embedding needs. -/
def keyEqStr : PyVal → String → Bool
  | .str s, k => s = k
  | _, _ => false

/-- Python `repr` (approximated for containers; container repr is not reached
on any claim-relevant path). -/
def pyRepr : PyVal → String
  | .none => "None"
  | .bool b => if b then "True" else "False"
  | .int n => toString n
  | .str s => sqS ++ s ++ sqS
  | .list [] => "[]"
  | .list (x :: xs) => "[" ++ pyRepr x ++ pyReprTail (PyVal.list xs)
  | .dict [] => "\x7b\x7d"
  | .dict ((k, v) :: kvs) =>
    "\x7b" ++ pyRepr k ++ ": " ++ pyRepr v ++ pyReprTailD (PyVal.dict kvs)
where
  pyReprTail : PyVal → String
    | .list [] => "]"
    | .list (x :: xs) => ", " ++ pyRepr x ++ pyReprTail (PyVal.list xs)
    | _ => "]"
  pyReprTailD : PyVal → String
    | .dict [] => "\x7d"
    | .dict ((k, v) :: kvs) => ", " ++ pyRepr k ++ ": " ++ pyRepr v ++ pyReprTailD (PyVal.dict kvs)
    | _ => "\x7d"

/-- Python `str(x)`: identity on strings, repr-like text otherwise. -/
def pyStr : PyVal → String
  | .str s => s
  | v => pyRepr v

/-- Lookup of a string key in a Python dict modelled as an
(insertion-ordered) assoc list with `PyVal` keys. -/
def dGet (kvs : List (PyVal × PyVal)) (k : String) : Option PyVal :=
  match kvs with
  | [] => Option.none
  | (k2, v) :: rest => if keyEqStr k2 k then some v else dGet rest k

/-- `d.get(k, dflt)` for a string key. -/
def dGetD (kvs : List (PyVal × PyVal)) (k : String) (dflt : PyVal) : PyVal :=
  (dGet kvs k).getD dflt

/-! ### String-keyed assoc lists with Python dict update semantics -/

/-- Lookup (first match). -/
def alGet {α : Type} (m : List (String × α)) (k : String) : Option α :=
  match m with
  | [] => Option.none
  | (k2, v) :: rest => if k2 = k then some v else alGet rest k

/-- `d[k] = v`: update in place when the key exists, else append (Python dicts
preserve insertion order). -/
def alSet {α : Type} (m : List (String × α)) (k : String) (v : α) : List (String × α) :=
  match m with
  | [] => [(k, v)]
  | (k2, v2) :: rest => if k2 = k then (k2, v) :: rest else (k2, v2) :: alSet rest k v

/-- `d.setdefault(k, v)`. -/
def alSetdefault {α : Type} (m : List (String × α)) (k : String) (v : α) : List (String × α) :=
  match alGet m k with
  | some _ => m
  | Option.none => m ++ [(k, v)]

/-! ### Schema normalizer (`normalize_schema` in `dml_validator.py`) -/

/-- The canonical per-column record built by the normalizer:
`{"nullable": bool, "default": val, "type": val, "required": bool}`. -/
structure ColumnSpec where
  nullable : Bool
  default : PyVal
  type : PyVal
  required : Bool

abbrev ColMap := List (String × ColumnSpec)
abbrev SchemaMap := List (String × ColMap)

/-- `col.get("name") or col.get("column") or col.get("column_name")`
(Python `or` returns the first truthy operand, else the last operand). -/
def resolveName (kvs : List (PyVal × PyVal)) : PyVal :=
  let a := dGetD kvs "name" .none
  if truthy a then a
  else
    let b := dGetD kvs "column" .none
    if truthy b then b
    else dGetD kvs "column_name" .none

/-- The `cols_list` selection: a dict with a list-valued `"columns"` key uses
that list; a plain list is used as is; anything else is skipped
(`if not isinstance(cols_list, list): continue`). -/
def colsListOf : PyVal → Option (List PyVal)
  | .dict kvs =>
    match dGet kvs "columns" with
    | some (.list l) => some l
    | _ => Option.none
  | .list l => some l
  | _ => Option.none

/-- Process one column entry of `cols_list`. A dict lacking a (truthy) name is
skipped; a truthy non-string name raises on `name.lower()`; a non-dict entry
is used as a bare name via `str(col)`. -/
def normCol (acc : ColMap) (col : PyVal) : Except PyErr ColMap :=
  match col with
  | .dict kvs =>
    if !truthy (resolveName kvs) then .ok acc
    else
      match resolveName kvs with
      | .str s =>
        .ok (alSet acc (toLowerStr s)
          ⟨truthy (dGetD kvs "nullable" (.bool true)),
           dGetD kvs "default" .none,
           dGetD kvs "type" .none,
           !truthy (dGetD kvs "nullable" (.bool true)) &&
             isNoneV (dGetD kvs "default" .none)⟩)
      | _ => .error .attributeError
  | c => .ok (alSet acc (toLowerStr (pyStr c)) ⟨true, .none, .none, false⟩)

/-- Fold `normCol` over a column list. -/
def normColsList (acc : ColMap) : List PyVal → Except PyErr ColMap
  | [] => .ok acc
  | c :: rest =>
    match normCol acc c with
    | .error e => .error e
    | .ok acc2 => normColsList acc2 rest

/-- Process one `(table_name, cols)` item of the table iteration. -/
def normTable (acc : SchemaMap) (tname : PyVal) (cols : PyVal) : Except PyErr SchemaMap :=
  if isNoneV tname then .ok acc
  else
    let tk := toLowerStr (pyStr tname)
    let acc1 := alSetdefault acc tk []
    match colsListOf cols with
    | Option.none => .ok acc1
    | some l =>
      let inner0 := (alGet acc1 tk).getD []
      match normColsList inner0 l with
      | .error e => .error e
      | .ok inner1 => .ok (alSet acc1 tk inner1)

/-- Fold `normTable` over the table items. -/
def normTables (acc : SchemaMap) : List (PyVal × PyVal) → Except PyErr SchemaMap
  | [] => .ok acc
  | (t, cols) :: rest =>
    match normTable acc t cols with
    | .error e => .error e
    | .ok acc2 => normTables acc2 rest

/-- The items iterated over: a dict containing a dict-valued `"tables"` key
iterates that inner dict, otherwise the top-level dict itself. -/
def tablesItems (kvs : List (PyVal × PyVal)) : List (PyVal × PyVal) :=
  match dGet kvs "tables" with
  | some (.dict tkvs) => tkvs
  | _ => kvs

/-- `normalize_schema(raw_schema)`: falsy input short-circuits to the empty
map; a truthy non-dict raises `TypeError`; tables/columns are folded with the
defensive skipping of the source. -/
def normalize_schema (raw : PyVal) : Except PyErr SchemaMap :=
  if !truthy raw then .ok []
  else
    match raw with
    | .dict kvs => normTables [] (tablesItems kvs)
    | _ => .error .typeError

/-! ### Value caster (`cast_value_for_sql` in `dml_validator.py`) -/

/-- Digit-string to `Nat` (helper for `int(...)`). -/
def digitsToNat : List Char → Option Nat
  | [] => Option.none
  | cs =>
    if cs.all Char.isDigit then
      some (cs.foldl (fun acc c => acc * 10 + (c.toNat - 48)) 0)
    else Option.none

/-- Python `int(value)` on a string: optional sign and decimal digits after
stripping whitespace (underscore separators and non-ASCII digits are not
modelled). -/
def parsePyInt (s : String) : Option Int :=
  match pyStripL s.data with
  | '+' :: rest => (digitsToNat rest).map Int.ofNat
  | '-' :: rest => (digitsToNat rest).map (fun n => -(n : Int))
  | cs => (digitsToNat cs).map Int.ofNat

/-- Does the (stripped) text parse as a Python `float(...)` literal?
Grammar: optional sign, then digits with an optional point (or a point with
digits), an optional exponent; or inf/infinity/nan (case-insensitive). -/
def pyFloatSyntaxOk (s : String) : Bool :=
  let cs := pyStripL s.data
  let body := fun (cs : List Char) =>
    let intPart := cs.takeWhile Char.isDigit
    let rest := cs.drop intPart.length
    let afterPoint :=
      match rest with
      | '.' :: r2 =>
        let fracPart := r2.takeWhile Char.isDigit
        if intPart.isEmpty && fracPart.isEmpty then Option.none
        else some (r2.drop fracPart.length)
      | r2 => if intPart.isEmpty then Option.none else some r2
    match afterPoint with
    | Option.none => false
    | some r3 =>
      match r3 with
      | [] => true
      | e :: r4 =>
        if e = 'e' || e = 'E' then
          let r5 := match r4 with
            | '+' :: r => r
            | '-' :: r => r
            | r => r
          let ds := r5.takeWhile Char.isDigit
          !ds.isEmpty && (r5.drop ds.length).isEmpty
        else false
  let core := fun (cs : List Char) =>
    let low := toLowerList cs
    low = "inf".data || low = "infinity".data || low = "nan".data || body cs
  match cs with
  | '+' :: rest => core rest
  | '-' :: rest => core rest
  | rest => core rest

/-- Stands in for `str(float(value))`: the exact shortest round-trip decimal
text of the binary float is not modelled; no claim inspects this text. -/
def pyFloatRepr (s : String) : String := pyStrip s

/-- Is `cs` exactly `YYYY-MM-DD` with plausible month/day ranges
(approximating `datetime.fromisoformat`'s date part)? -/
def isoDateOk (cs : List Char) : Bool :=
  match cs with
  | [y1, y2, y3, y4, '-', m1, m2, '-', d1, d2] =>
    [y1, y2, y3, y4, m1, m2, d1, d2].all Char.isDigit &&
    (let m := (m1.toNat - 48) * 10 + (m2.toNat - 48)
     let d := (d1.toNat - 48) * 10 + (d2.toNat - 48)
     1 ≤ m && m ≤ 12 && 1 ≤ d && d ≤ 31)
  | _ => false

/-- `datetime.fromisoformat(text)` followed by `dt.date().isoformat()`:
accepts `YYYY-MM-DD`, optionally followed by a `T`- or space-separated time
part (time syntax approximated), and yields the 10-char date. -/
def castDateText (cs : List Char) : Option (List Char) :=
  let datePart := cs.take 10
  let rest := cs.drop 10
  if isoDateOk datePart then
    match rest with
    | [] => some datePart
    | 'T' :: r =>
      if r.all (fun c => c.isDigit || c = ':' || c = '.' || c = '+' || c = '-') && !r.isEmpty
      then some datePart else Option.none
    | ' ' :: r =>
      if r.all (fun c => c.isDigit || c = ':' || c = '.' || c = '+' || c = '-') && !r.isEmpty
      then some datePart else Option.none
    | _ => Option.none
  else Option.none

/-- The quoted-string fallback of the caster: strip one layer of quotes and
re-quote with single quotes. -/
def strFallback (value : String) : String := sqS ++ stripQuotes value ++ sqS

/-- `cast_value_for_sql(value, col_type)`.

The source's `col_type.upper()` sits **outside** the `try` block, so a
non-string (in particular `None`) declared type raises `AttributeError`
whenever the literal is not `NULL`; every failure inside the `try` is caught
and downgraded to the quoted-string fallback. -/
def cast_value_for_sql (value : String) (colType : PyVal) : Except PyErr String :=
  if toUpperStr value = "NULL" then .ok "NULL"
  else
    match colType with
    | .str t =>
      let ct := toUpperList t.data
      .ok (if hasSub "INT".data ct then
             match parsePyInt value with
             | some n => toString n
             | Option.none => strFallback value
           else if hasSub "NUMERIC".data ct || hasSub "DECIMAL".data ct ||
                   hasSub "FLOAT".data ct || hasSub "DOUBLE".data ct then
             if pyFloatSyntaxOk value then pyFloatRepr value else strFallback value
           else if hasSub "DATE".data ct then
             match castDateText (stripQuotes value).data with
             | some d => sqS ++ String.mk d ++ sqS
             | Option.none => strFallback value
           else if hasSub "CHAR".data ct || hasSub "TEXT".data ct ||
                   hasSub "VARCHAR".data ct then
             sqS ++ stripQuotes value ++ sqS
           else value)
    | _ => .error .attributeError

/-! ### DML validator/rewriter (`validate_and_cast_dml` in `dml_validator.py`) -/

/-- The statement kinds the validator handles. -/
inductive StmtType where
  | INSERT
  | UPDATE
  | DELETE
deriving DecidableEq

/-- `sqlparse.parse(sql)[0].get_type()` restricted to the three DML kinds the
validator accepts: the first keyword decides (leading whitespace skipped;
leading SQL comments are not modelled). -/
def stmt_get_type (sql : String) : Option StmtType :=
  let w := toLowerList ((sql.data.dropWhile isPySpace).takeWhile Char.isAlpha)
  if w = "insert".data then some .INSERT
  else if w = "update".data then some .UPDATE
  else if w = "delete".data then some .DELETE
  else Option.none

/-- `extract_table_name(sql, stmt_type)`: kind-specific anchored regex on the
stripped SQL (`INSERT\s+INTO\s+([^\s(]+)` / `UPDATE\s+([^\s(]+)` /
`DELETE\s+FROM\s+([^\s(]+)`, IGNORECASE), lower-casing the captured token. -/
def extract_table_name (sql : String) (st : StmtType) : Option String :=
  let cs := pyStripL sql.data
  match st with
  | .INSERT =>
    (matchCI "INSERT".data cs).bind fun r1 =>
    (ws1 r1).bind fun r2 =>
    (matchCI "INTO".data r2).bind fun r3 =>
    (ws1 r3).bind fun r4 =>
    (tok1 r4).map fun p => String.mk (toLowerList p.1)
  | .UPDATE =>
    (matchCI "UPDATE".data cs).bind fun r1 =>
    (ws1 r1).bind fun r2 =>
    (tok1 r2).map fun p => String.mk (toLowerList p.1)
  | .DELETE =>
    (matchCI "DELETE".data cs).bind fun r1 =>
    (ws1 r1).bind fun r2 =>
    (matchCI "FROM".data r2).bind fun r3 =>
    (ws1 r3).bind fun r4 =>
    (tok1 r4).map fun p => String.mk (toLowerList p.1)

/-- The continuation after the INSERT column group: `\s*VALUES\s*\(` then the
value group `(.*?)` up to the first `)` (the pattern ends there). -/
def afterColsCont (cs : List Char) : Option (List Char × Unit) :=
  match matchCI "VALUES".data (wsStar cs) with
  | Option.none => Option.none
  | some r =>
    match wsStar r with
    | '(' :: r2 => ngUpToParen (fun _ => some ()) r2
    | _ => Option.none

/-- `re.match(r"INSERT\s+INTO\s+\w+\s*\((.*?)\)\s*VALUES\s*\((.*?)\)", sql,
IGNORECASE)` — anchored at the start of the **unstripped** SQL; returns the
column group and the value group. -/
def insertColsVals (sql : String) : Option (List Char × List Char) :=
  (matchCI "INSERT".data sql.data).bind fun r1 =>
  (ws1 r1).bind fun r2 =>
  (matchCI "INTO".data r2).bind fun r3 =>
  (ws1 r3).bind fun r4 =>
  (word1 r4).bind fun r5 =>
  match wsStar r5 with
  | '(' :: r6 =>
    (ngUpToParen afterColsCont r6).map fun p => (p.1, p.2.1)
  | _ => Option.none

/-- Non-greedy group of `SET\s+(.*?)(\s+WHERE|$)` under DOTALL: stop at the
first point where `\s+WHERE` matches (or at end of string). -/
def ngSetBody : List Char → List Char
  | [] => []
  | c :: rest =>
    if ((ws1 (c :: rest)).bind (matchCI "WHERE".data)).isSome then []
    else c :: ngSetBody rest

/-- `re.search(r"SET\s+(.*?)(\s+WHERE|$)", sql, IGNORECASE | DOTALL)`:
leftmost occurrence of `SET` followed by whitespace, then the non-greedy
group. -/
def searchSet : List Char → Option (List Char)
  | [] => Option.none
  | c :: rest =>
    match (matchCI "SET".data (c :: rest)).bind ws1 with
    | some r => some (ngSetBody r)
    | Option.none => searchSet rest

/-- `{valid, message, sql}` as returned by the validator. -/
structure ValidationResult where
  valid : Bool
  message : String
  sql : String
deriving DecidableEq

/-- The lower-cased, stripped column names of the INSERT column group. -/
def insertCols (g1 : List Char) : List String :=
  (splitOnChar ',' g1).map fun c => String.mk (toLowerList (pyStripL c))

/-- The stripped value texts of the INSERT value group. -/
def insertVals (g2 : List Char) : List String :=
  (splitOnChar ',' g2).map fun v => String.mk (pyStripL v)

/-- The missing-required scan: schema columns with
`not nullable and col not in cols and default is None`, in schema order. -/
def missingRequired (tcols : ColMap) (cols : List String) : List String :=
  (tcols.filter fun p => !p.2.nullable && !cols.contains p.1 && isNoneV p.2.default).map
    Prod.fst

/-- Cast each supplied `(column, value)` pair: known columns go through the
value caster with their declared type (which may raise), unknown columns pass
through uncast. -/
def castPairs (tcols : ColMap) : List (String × String) → Except PyErr (List String)
  | [] => .ok []
  | (c, v) :: rest =>
    let cv :=
      match alGet tcols c with
      | some spec => cast_value_for_sql v spec.type
      | Option.none => .ok v
    match cv with
    | .error e => .error e
    | .ok s =>
      match castPairs tcols rest with
      | .error e => .error e
      | .ok tail => .ok (s :: tail)

/-- Rewrite the UPDATE assignment fragments: `col = value` pairs with a known
column are cast (which may raise); fragments without `=` pass through. -/
def castAssignments (tcols : ColMap) : List (List Char) → Except PyErr (List String)
  | [] => .ok []
  | a :: rest =>
    let cur :=
      if a.contains '=' then
        let (c0, v0) := splitOnceAt '=' a
        let c := String.mk (toLowerList (pyStripL c0))
        let v0s := String.mk (pyStripL v0)
        let v :=
          match alGet tcols c with
          | some spec => cast_value_for_sql v0s spec.type
          | Option.none => .ok v0s
        match v with
        | .error e => Except.error e
        | .ok vs => Except.ok (c ++ " = " ++ vs)
      else Except.ok (String.mk a)
    match cur with
    | .error e => .error e
    | .ok s =>
      match castAssignments tcols rest with
      | .error e => .error e
      | .ok tail => .ok (s :: tail)

/-- The `WHERE` clause preserved verbatim: the suffix of the original SQL from
the first case-insensitive occurrence of `WHERE`, else the empty string. -/
def whereClauseOf (sql : String) : String :=
  match findSub "WHERE".data (toUpperList sql.data) with
  | some i => String.mk (sql.data.drop i)
  | Option.none => ""

/-- The INSERT tail of the validator: cast the supplied values (may raise),
rebuild the statement, and let the missing-required check take precedence
over the computed rewrite. -/
def insertBranch (t : String) (tcols : ColMap) (sql : String) (g1 g2 : List Char) :
    Except PyErr ValidationResult :=
  match castPairs tcols ((insertCols g1).zip (insertVals g2)) with
  | .error e => .error e
  | .ok casted =>
    let new_sql := "INSERT INTO " ++ t ++ " (" ++ strJoin ", " (insertCols g1) ++
      ") VALUES (" ++ strJoin ", " casted ++ ");"
    if missingRequired tcols (insertCols g1) ≠ [] then
      .ok ⟨false, "Missing required columns: " ++
        strJoin ", " (missingRequired tcols (insertCols g1)), sql⟩
    else .ok ⟨true, "SQL is valid and values casted.", new_sql⟩

/-- The UPDATE tail of the validator: rewrite the SET assignments (may raise)
and keep the original WHERE clause verbatim. -/
def updateBranch (t : String) (tcols : ColMap) (sql : String) :
    Except PyErr ValidationResult :=
  let set_text := (searchSet sql.data).getD []
  let assignments := ((splitOnChar ',' set_text).map pyStripL).filter (· ≠ [])
  match castAssignments tcols assignments with
  | .error e => .error e
  | .ok newAssigns =>
    let new_sql := "UPDATE " ++ t ++ " SET " ++ strJoin ", " newAssigns ++
      " " ++ whereClauseOf sql
    .ok ⟨true, "SQL is valid and values casted.", new_sql⟩

/-- `validate_and_cast_dml(sql, schema_map)`.

Modelled in `Except PyErr` because the casting steps can raise (a `None`
declared type) and the source does not catch that. `sqlparse.parse` yields no
statement only for the empty string. -/
def validate_and_cast_dml (sql : String) (schema_map : SchemaMap) :
    Except PyErr ValidationResult :=
  if sql = "" then .ok ⟨false, "Unable to parse SQL.", sql⟩
  else
    match stmt_get_type sql with
    | Option.none => .ok ⟨false, "Not a DML query.", sql⟩
    | some st =>
      match extract_table_name sql st with
      | Option.none =>
        .ok ⟨false, "Table " ++ sqS ++ "None" ++ sqS ++ " not found in schema.", sql⟩
      | some t =>
        match alGet schema_map t with
        | Option.none =>
          .ok ⟨false, "Table " ++ sqS ++ t ++ sqS ++ " not found in schema.", sql⟩
        | some tcols =>
          match st with
          | .INSERT =>
            match insertColsVals sql with
            | Option.none => .ok ⟨false, "INSERT statement parsing failed.", sql⟩
            | some (g1, g2) => insertBranch t tcols sql g1 g2
          | .UPDATE => updateBranch t tcols sql
          | .DELETE => .ok ⟨true, "SQL is valid and values casted.", sql⟩

/-! ### Per-user conversation state (`memory` in `langchain_nl2sql.py`) -/

/-- One entry of a user's session history (a `PendingStatement` or an
executed read). -/
structure Entry where
  query : String
  sql : String
  suggestions : List String
  requires_confirmation : Bool
  executed : Bool
deriving DecidableEq

/-- A per-user session: history plus its bound. -/
structure Session where
  history : List Entry
  max_history : Nat
deriving DecidableEq

/-- The global `memory` dict, keyed by user id. -/
abbrev Memory := List (String × Session)

def DEFAULT_MAX_HISTORY : Nat := 10

/-- `l[-k:]` in Python (for `k = 0` this is the whole list). -/
def pyLastSlice {α : Type} (k : Nat) (l : List α) : List α :=
  if k = 0 then l else l.drop (l.length - k)

/-! ### `clean_llm_output` and helpers (`main.py`) -/

/-- Python `str.splitlines()` restricted to `\n` separators (universal
newlines beyond `\n` are not modelled): no entry for a trailing newline. -/
def pySplitlines (l : List Char) : List (List Char) :=
  let parts := splitOnChar (Char.ofNat 10) l
  match parts.getLast? with
  | some [] => parts.dropLast
  | _ => parts

/-- `clean_llm_output(llm_text)`: strip, and when the text both starts and
ends with a Markdown fence remove the fence lines. `lines[-1]` raises
`IndexError` when the fenced text is a single line. -/
def clean_llm_output (s : String) : Except PyErr String :=
  let t := pyStripL s.data
  if "```".data.isPrefixOf t && "```".data.isSuffixOf t then
    let lines := pySplitlines t
    let lines :=
      match lines with
      | l0 :: rest => if "```".data.isPrefixOf l0 then rest else l0 :: rest
      | [] => []
    match lines.getLast? with
    | Option.none => .error .indexError
    | some lastLine =>
      let lines2 := if pyStripL lastLine = "```".data then lines.dropLast else lines
      .ok (String.mk (pyStripL (joinChar (Char.ofNat 10) lines2)))
  else .ok (String.mk t)

/-- `build_schema_text(schema_map)`: one line per table, each column rendered
as `name(type-or-UNKNOWN, required-or-nullable)`. -/
def build_schema_text (m : SchemaMap) : String :=
  strJoin "\n" (m.map fun p =>
    p.1 ++ ": " ++ strJoin ", " (p.2.map fun q =>
      let typ := if truthy q.2.type then pyStr q.2.type else "UNKNOWN"
      q.1 ++ "(" ++ typ ++ ", " ++ (if q.2.required then "required" else "nullable") ++ ")"))

/-! ### `run_sql_chain` (`langchain_nl2sql.py`) -/

/-- The dict `run_sql_chain` returns. -/
structure ChainOut where
  sql : String
  suggestions : List String
  clarification_required : Bool
  requires_confirmation : Bool
deriving DecidableEq

/-- One short-term context item:
`f"Q: {query}\nSQL: {sql}\nExecuted: {executed}\nSuggestions: {suggestions}"`. -/
def contextItem (e : Entry) : String :=
  "Q: " ++ e.query ++ String.mk [Char.ofNat 10] ++ "SQL: " ++ e.sql ++
  String.mk [Char.ofNat 10] ++ "Executed: " ++ (if e.executed then "True" else "False") ++
  String.mk [Char.ofNat 10] ++ "Suggestions: " ++
  "[" ++ strJoin ", " (e.suggestions.map fun s => sqS ++ s ++ sqS) ++ "]"

/-- `run_sql_chain(chain, schema_text, user_query, user_id)`.

External collaborators are parameters: `chainInvoke` is the LLM chain over
the four prompt fields (the static prompt template text is elided — only the
data flowing into it matters), `jsonLoads` is `json.loads` restricted to
objects carrying a string `sql` and a string-list `suggestions` (a non-object
or unparsable document is `none`, which the source's `except` turns into the
raw-text fallback), `validatorSays` is the LLM-based
`validate_sql_with_schema`, and `docsAndScores` is the retrieval result.
The FAISS vector-store update is an external side effect and is not part of
the returned state. -/
def run_sql_chain
    (chainInvoke : String → String → String → String → String)
    (jsonLoads : String → Option (String × List String))
    (validatorSays : String → String → Bool)
    (schema_text user_query user_id : String)
    (docsAndScores : List (String × ℚ))
    (memory : Memory) : Memory × ChainOut :=
  let memory :=
    if (alGet memory user_id).isSome then memory
    else alSet memory user_id ⟨[], DEFAULT_MAX_HISTORY⟩
  let session_history := ((alGet memory user_id).getD ⟨[], DEFAULT_MAX_HISTORY⟩).history
  let context0 := strJoin "\n\n" (session_history.map contextItem)
  let context_text :=
    match docsAndScores with
    | [] => context0
    | (doc, _score) :: _ => context0 ++ "\n\n" ++ doc
  let last_sql :=
    match session_history.getLast? with
    | some item => item.sql
    | Option.none => ""
  let generated_text := pyStrip (chainInvoke user_query last_sql schema_text context_text)
  let (sql, suggestions) := (jsonLoads generated_text).getD (generated_text, [])
  let is_dml := startsWithAnyCI ["insert", "update", "delete"] (pyStripL sql.data)
  let ok := validatorSays sql schema_text
  (memory, ⟨sql, suggestions, !ok, is_dml⟩)

/-! ### `/query` (`run_query` in `main.py`) -/

/-- The response of `/query` (HTTP 500s from re-raised exceptions collapse to
`httpError`; the clarification branch reads the missing `result["message"]`
key and is therefore a `KeyError` → 500). -/
inductive QueryOutcome where
  | httpError
  | needsConfirmation (sql : String) (suggestions : List String) (message : String)
  | executed (sql : String) (results : List String) (history_id : Nat)
deriving DecidableEq

/-- The in-memory state `run_query`/`confirm_dml` read and write: the session
memory plus the log of SQL texts passed to `execute_sql`. -/
structure AppState where
  memory : Memory
  executedSqls : List String
deriving DecidableEq

def DML_PREFIXES : List String := ["INSERT", "UPDATE", "DELETE", "MERGE", "UPSERT"]

def DEFAULT_DML_MESSAGE : String :=
  "This is a DML query. Do you want to execute it? Reply with CONFIRM_EXECUTE to proceed."

/-- The nested-JSON unwrap of `run_query` (main.py lines 84–96): when the
`sql` field itself parses as JSON, its inner `sql`/`suggestions` replace the
outer ones; otherwise the cleaned text is used with the chain's
suggestions. -/
def unwrapSql (jsonLoads : String → Option (String × List String))
    (inner : String) (fallbackSugg : List String) : String × List String :=
  match jsonLoads inner with
  | some p => (pyStrip p.1, p.2)
  | Option.none => (pyStrip inner, fallbackSugg)

/-- `run_query(req)`.

External collaborators are parameters: `rawSchema` is `get_db_schema`,
`dbExec` is `execute_sql` for reads (rows abstracted to a string list),
`histId` the id returned by `log_query_history`. The engine handle, the
history table initialisation and the audit insert are external effects. -/
def run_query
    (chainInvoke : String → String → String → String → String)
    (jsonLoads : String → Option (String × List String))
    (validatorSays : String → String → Bool)
    (dbExec : String → List String)
    (histId : Nat) (rawSchema : PyVal)
    (docsAndScores : List (String × ℚ))
    (query user_id : String) (st : AppState) : AppState × QueryOutcome :=
  match normalize_schema rawSchema with
  | .error _ => (st, .httpError)
  | .ok schema_map =>
    let schema_text := build_schema_text schema_map
    let (mem1, result) :=
      run_sql_chain chainInvoke jsonLoads validatorSays schema_text query user_id
        docsAndScores st.memory
    if result.clarification_required then
      ({ st with memory := mem1 }, .httpError)
    else
      match clean_llm_output result.sql with
      | .error _ => ({ st with memory := mem1 }, .httpError)
      | .ok inner_sql =>
        let (generated_sql, suggestions) := unwrapSql jsonLoads inner_sql result.suggestions
        let requires_confirmation := result.requires_confirmation
        let is_dml := startsWithAnyCI DML_PREFIXES (pyStripL generated_sql.data)
        let sess := (alGet mem1 user_id).getD ⟨[], DEFAULT_MAX_HISTORY⟩
        if is_dml || requires_confirmation then
          let entry : Entry := ⟨query, generated_sql, suggestions, is_dml, false⟩
          let mem2 := alSet mem1 user_id { sess with history := sess.history ++ [entry] }
          ({ st with memory := mem2 },
           .needsConfirmation generated_sql suggestions DEFAULT_DML_MESSAGE)
        else
          let results := dbExec generated_sql
          let entry : Entry := ⟨query, generated_sql, suggestions, is_dml, true⟩
          let hist1 := sess.history ++ [entry]
          let hist2 :=
            if hist1.length > sess.max_history then pyLastSlice sess.max_history hist1
            else hist1
          let mem2 := alSet mem1 user_id { sess with history := hist2 }
          ({ memory := mem2, executedSqls := st.executedSqls ++ [generated_sql] },
           .executed generated_sql results histId)

/-! ### `/confirm_dml` (`confirm_dml` in `main.py`) -/

/-- The response of `/confirm_dml`: the inner 400 `HTTPException`s are
re-raised by the blanket handler as 500s — both are `error` here with the
original detail text; cancellation and failed re-validation answer with a
bare message dict; success reports the affected row count. -/
inductive ConfirmOutcome where
  | error (detail : String)
  | msgOnly (message : String)
  | success (affected : Int)
deriving DecidableEq

/-- Set `executed = True` on the first history entry whose SQL matches. -/
def markFirstExecuted : List Entry → String → List Entry
  | [], _ => []
  | e :: rest, s =>
    if e.sql = s then { e with executed := true } :: rest
    else e :: markFirstExecuted rest s

/-- `confirm_dml(req)`. `execDml` is `execute_sql` for the confirmed write
(`.error` models a database exception → 500, which leaves `executed`
untouched). -/
def confirm_dml
    (execDml : String → Except Unit Int) (rawSchema : PyVal)
    (user_id sqlReq : String) (confirm : Bool) (st : AppState) :
    AppState × ConfirmOutcome :=
  match alGet st.memory user_id with
  | Option.none => (st, .error "No session history found for this user.")
  | some sess =>
    match sess.history.find? (fun e => e.sql = sqlReq) with
    | Option.none => (st, .error "SQL not found in session history.")
    | some matching =>
      if !matching.requires_confirmation then
        (st, .error "This query does not require confirmation.")
      else if matching.executed then
        (st, .error "This query has already been executed.")
      else if !confirm then
        (st, .msgOnly "DML query execution cancelled by user.")
      else
        match normalize_schema rawSchema with
        | .error _ => (st, .error "schema normalization raised")
        | .ok schema_map =>
          match validate_and_cast_dml sqlReq schema_map with
          | .error _ => (st, .error "validation raised")
          | .ok v =>
            if !v.valid then (st, .msgOnly v.message)
            else
              match execDml v.sql with
              | .error _ => (st, .error "execution failed")
              | .ok n =>
                ({ memory := alSet st.memory user_id
                     { sess with history := markFirstExecuted sess.history sqlReq },
                   executedSqls := st.executedSqls ++ [v.sql] },
                 .success n)

/-! ### Definitions supporting the claim statements -/

/-- The schema columns *marked required* that are absent from the supplied
column list, in schema order (the wording of the claim; the source recomputes
`not nullable and default is None` instead of reading `required`). -/
def requiredAbsent (tcols : ColMap) (cols : List String) : List String :=
  (tcols.filter fun p => p.2.required && !cols.contains p.1).map Prod.fst

/-- Raw shape (a): `{t: ["a"]}`. -/
def shapeSimple (t a : String) : PyVal := .dict [(.str t, .list [.str a])]

/-- Raw shape (b): `{t: [{"name": "a"}]}`. -/
def shapeDetailed (t a : String) : PyVal :=
  .dict [(.str t, .list [.dict [(.str "name", .str a)]])]

/-- Raw shape (c): `{"tables": {t: {"columns": ["a"]}}}`. -/
def shapeIndexed (t a : String) : PyVal :=
  .dict [(.str "tables", .dict [(.str t, .dict [(.str "columns", .list [.str a])])])]

/-- A column entry the traversal survives: a dict whose resolved name is
falsy (skipped) or a string; any non-dict entry is safe. -/
def colOk : PyVal → Bool
  | .dict kvs =>
    let n := resolveName kvs
    !truthy n || isStrV n
  | _ => true

/-- All reachable column entries of one table value are safe. -/
def goodCols (cols : PyVal) : Bool :=
  match colsListOf cols with
  | some l => l.all colOk
  | Option.none => true

/-- All reachable column entries of the whole raw document are safe. -/
def goodRaw : PyVal → Bool
  | .dict kvs => (tablesItems kvs).all fun p => isNoneV p.1 || goodCols p.2
  | _ => true

/-! ### Concrete collaborators and traces used by counterexamples/witnesses -/

/-- An LLM chain that always proposes the same single-row INSERT. -/
def cexChainDml : String → String → String → String → String :=
  fun _ _ _ _ => "INSERT INTO t (a) VALUES (NULL)"

/-- An LLM chain that always proposes a read. -/
def cexChainRead : String → String → String → String → String :=
  fun _ _ _ _ => "SELECT 1"

/-- `json.loads` that never parses (plain-SQL chain output). -/
def cexJson : String → Option (String × List String) := fun _ => Option.none

/-- An LLM validation check that always approves. -/
def cexValidator : String → String → Bool := fun _ _ => true

/-- A read executor returning no rows. -/
def cexRows : String → List String := fun _ => []

/-- A write executor reporting one affected row. -/
def cexExec : String → Except Unit Int := fun _ => .ok 1

/-- A live schema: table `t` with one nullable TEXT column `a`. -/
def cexSchema : PyVal :=
  .dict [(.str "t", .list [.dict [(.str "name", .str "a"), (.str "type", .str "TEXT"),
    (.str "nullable", .bool true)]])]

/-- The proposed mutating statement of the trace. -/
def cexDml : String := "INSERT INTO t (a) VALUES (NULL)"

/-- Turn 1: user `u` proposes the INSERT; it becomes pending. -/
def cexState1 : AppState :=
  (run_query cexChainDml cexJson cexValidator cexRows 1 cexSchema [] "q1" "u" ⟨[], []⟩).1

/-- Turn 2: `u` confirms the INSERT (first confirmation). -/
def cexConfirm1 : AppState × ConfirmOutcome :=
  confirm_dml cexExec cexSchema "u" cexDml true cexState1

def cexState2 : AppState := cexConfirm1.1

/-- Turn 3: the same INSERT is proposed again (a duplicate pending entry). -/
def cexState3 : AppState :=
  (run_query cexChainDml cexJson cexValidator cexRows 1 cexSchema [] "q2" "u" cexState2).1

/-- Turns 4–12: nine reads; the trimming on the read path evicts the executed
entry while the newer duplicate pending entry survives. -/
def cexState4 : AppState :=
  (List.range 9).foldl (fun acc i =>
    (run_query cexChainRead cexJson cexValidator cexRows 0 cexSchema []
      ("r" ++ toString i) "u" acc).1) cexState3

/-- Turn 13: `u` confirms the same SQL text again. -/
def cexConfirm2 : AppState × ConfirmOutcome :=
  confirm_dml cexExec cexSchema "u" cexDml true cexState4

/-- Ten reads from an empty state: the history reaches the bound. -/
def cexFull10 : AppState :=
  (List.range 10).foldl (fun acc i =>
    (run_query cexChainRead cexJson cexValidator cexRows 0 cexSchema []
      ("r" ++ toString i) "u" acc).1) ⟨[], []⟩

/-- One more mutating proposal on top of a full history. -/
def cexOverflow : AppState :=
  (run_query cexChainDml cexJson cexValidator cexRows 1 cexSchema [] "q" "u" cexFull10).1

/-! ### Claim C1 — totality of the value caster -/

/-- Claim C1 counterexample: the caster is **not** total on a null declared
type. `cast_value_for_sql("1", None)` evaluates `col_type.upper()` outside
the `try` block and raises `AttributeError` instead of passing the literal
through unchanged. -/
theorem c1_cast_null_type_raises :
    cast_value_for_sql "1" PyVal.none = .error PyErr.attributeError := rfl

/-- Claim C1 (amended): for every literal and every **string** declared type
the caster returns an SQL literal and never throws; the literal `NULL`
(case-insensitive) yields `NULL` for any declared type; an unknown string
type passes the literal through unchanged; a conversion failure (here: the
integer branch) falls back to the single-quoted string literal; but a null
(non-string) declared type raises `AttributeError` whenever the literal is
not `NULL`. -/
theorem cast_value_caster_contract :
    (∀ v t, ∃ r, cast_value_for_sql v (PyVal.str t) = Except.ok r) ∧
    (∀ ty, cast_value_for_sql "NULL" ty = Except.ok "NULL") ∧
    (∀ v, toUpperStr v ≠ "NULL" →
      cast_value_for_sql v PyVal.none = Except.error PyErr.attributeError) ∧
    (∀ v t, toUpperStr v ≠ "NULL" →
      hasSub "INT".data (toUpperList t.data) = false →
      hasSub "NUMERIC".data (toUpperList t.data) = false →
      hasSub "DECIMAL".data (toUpperList t.data) = false →
      hasSub "FLOAT".data (toUpperList t.data) = false →
      hasSub "DOUBLE".data (toUpperList t.data) = false →
      hasSub "DATE".data (toUpperList t.data) = false →
      hasSub "CHAR".data (toUpperList t.data) = false →
      hasSub "TEXT".data (toUpperList t.data) = false →
      hasSub "VARCHAR".data (toUpperList t.data) = false →
      cast_value_for_sql v (PyVal.str t) = Except.ok v) ∧
    (∀ v t, toUpperStr v ≠ "NULL" →
      hasSub "INT".data (toUpperList t.data) = true →
      parsePyInt v = Option.none →
      cast_value_for_sql v (PyVal.str t) = Except.ok (strFallback v)) := by
  refine ⟨?_, ?_, ?_, ?_, ?_⟩
  · intro v t
    by_cases h : toUpperStr v = "NULL" <;> simp [cast_value_for_sql, h]
  · intro ty
    have h : toUpperStr "NULL" = "NULL" := rfl
    simp [cast_value_for_sql, h]
  · intro v hv
    simp [cast_value_for_sql, hv]
  · intro v t hv h1 h2 h3 h4 h5 h6 h7 h8 h9
    simp [cast_value_for_sql, hv, h1, h2, h3, h4, h5, h6, h7, h8, h9]
  · intro v t hv h1 hp
    simp [cast_value_for_sql, hv, h1, hp]

/-- Witness for the C1 amended theorem at concrete inputs. -/
theorem cast_value_caster_contract_witness :
    cast_value_for_sql "abc" (PyVal.str "BLOB") = Except.ok "abc" ∧
    cast_value_for_sql "abc" (PyVal.str "INTEGER") = Except.ok (strFallback "abc") ∧
    cast_value_for_sql "abc" PyVal.none = Except.error PyErr.attributeError :=
  ⟨cast_value_caster_contract.2.2.2.1 "abc" "BLOB" (by decide) (by decide) (by decide)
      (by decide) (by decide) (by decide) (by decide) (by decide) (by decide) (by decide),
   cast_value_caster_contract.2.2.2.2 "abc" "INTEGER" (by decide) (by decide) (by decide),
   cast_value_caster_contract.2.2.1 "abc" (by decide)⟩

/-! ### Claim C2 — clarification gating -/

/-- Claim C2 counterexample: on a user's very first request (no session in
memory) with the top retrieval score 9/10, the clarification path **is**
taken when the LLM validation check says no — first-turn bypass does not
exist, and no 0.35 threshold is consulted. -/
theorem c2_first_turn_clarification_taken :
    alGet ([] : Memory) "u" = Option.none ∧
    (run_sql_chain (fun _ _ _ _ => "SELECT 1") (fun _ => Option.none)
        (fun _ _ => false) "schema" "list users" "u"
        [("doc", (9 : ℚ) / 10)] []).2.clarification_required = true :=
  ⟨rfl, rfl⟩

/-- Claim C2 (amended): the clarification flag is set exactly when the
LLM-based SQL validation check (`validate_sql_with_schema`) rejects the
generated SQL — on every turn, first or not; and the retrieval scores are
never consulted: two retrieval results with the same texts (any scores)
produce identical behaviour. -/
theorem clarification_iff_validator_rejects :
    ∀ (chainInvoke : String → String → String → String → String)
      (jsonLoads : String → Option (String × List String))
      (validatorSays : String → String → Bool)
      (schema_text user_query user_id : String)
      (docs : List (String × ℚ)) (memory : Memory),
      ((run_sql_chain chainInvoke jsonLoads validatorSays schema_text user_query
          user_id docs memory).2.clarification_required
        = !validatorSays (run_sql_chain chainInvoke jsonLoads validatorSays schema_text
            user_query user_id docs memory).2.sql schema_text) ∧
      (∀ docs2 : List (String × ℚ), docs.map Prod.fst = docs2.map Prod.fst →
        run_sql_chain chainInvoke jsonLoads validatorSays schema_text user_query
          user_id docs memory
        = run_sql_chain chainInvoke jsonLoads validatorSays schema_text user_query
            user_id docs2 memory) := by
  intro chainInvoke jsonLoads validatorSays schema_text user_query user_id docs memory
  constructor
  · rfl
  · intro docs2 h
    match docs, docs2, h with
    | [], [], _ => rfl
    | (d, s1) :: t1, (d2, s2) :: t2, h =>
      simp only [List.map_cons, List.cons.injEq] at h
      simp only [run_sql_chain, h.1]

/-- Witness for the C2 amended theorem at concrete inputs. -/
theorem clarification_iff_validator_rejects_witness :
    run_sql_chain (fun _ _ _ _ => "SELECT 1") (fun _ => Option.none) (fun _ _ => true)
        "s" "q" "u" [("doc", (1 : ℚ) / 2)] []
      = run_sql_chain (fun _ _ _ _ => "SELECT 1") (fun _ => Option.none) (fun _ _ => true)
        "s" "q" "u" [("doc", (99 : ℚ) / 100)] [] :=
  (clarification_iff_validator_rejects (fun _ _ _ _ => "SELECT 1") (fun _ => Option.none)
    (fun _ _ => true) "s" "q" "u" [("doc", (1 : ℚ) / 2)] []).2
    [("doc", (99 : ℚ) / 100)] (by decide)

/-! ### Claim C10 — invalid results preserve the input SQL -/

/-- Claim C10: whenever the validator returns `valid = false` — non-DML
input, unparseable SQL, unknown table, failed INSERT extraction, or missing
required columns — the `sql` field of the result is the input statement
unchanged; the rewritten statement only ever accompanies `valid = true`. -/
theorem validate_invalid_preserves_sql :
    ∀ (sql : String) (schema_map : SchemaMap) (r : ValidationResult),
      validate_and_cast_dml sql schema_map = .ok r → r.valid = false → r.sql = sql := by
  have hIns : ∀ (t : String) (tcols : ColMap) (sql : String) (g1 g2 : List Char)
      (r : ValidationResult), insertBranch t tcols sql g1 g2 = .ok r →
      r.valid = false → r.sql = sql := by
    intro t tcols sql g1 g2 r h hv
    unfold insertBranch at h
    rcases hcp : castPairs tcols ((insertCols g1).zip (insertVals g2)) with e | casted
    · simp only [hcp] at h
      exact Except.noConfusion h
    · simp only [hcp] at h
      split at h
      · cases h; rfl
      · cases h; simp_all
  have hUpd : ∀ (t : String) (tcols : ColMap) (sql : String) (r : ValidationResult),
      updateBranch t tcols sql = .ok r → r.valid = false → r.sql = sql := by
    intro t tcols sql r h hv
    unfold updateBranch at h
    rcases hca : castAssignments tcols
        (((splitOnChar ',' ((searchSet sql.data).getD [])).map pyStripL).filter (· ≠ []))
      with e | newAssigns
    · simp only [hca] at h
      exact Except.noConfusion h
    · simp only [hca] at h
      cases h; simp_all
  intro sql sm r h hv
  unfold validate_and_cast_dml at h
  split at h
  · cases h; rfl
  · split at h
    · cases h; rfl
    · split at h
      · cases h; rfl
      · split at h
        · cases h; rfl
        · split at h
          · split at h
            · cases h; rfl
            · exact hIns _ _ _ _ _ _ h hv
          · exact hUpd _ _ _ _ h hv
          · cases h; simp_all

/-- Witness for C10 at a concrete invalid input. -/
theorem validate_invalid_preserves_sql_witness :
    (⟨false, "Not a DML query.", "SELECT 1"⟩ : ValidationResult).sql = "SELECT 1" :=
  validate_invalid_preserves_sql "SELECT 1" []
    ⟨false, "Not a DML query.", "SELECT 1"⟩ rfl rfl

/-! ### Claim C6 — missing required columns on INSERT -/

/-- When `required` is consistent with `nullable`/`default` (as the
normalizer guarantees), the claim's required-absent scan and the source's
missing-required scan agree. -/
theorem requiredAbsent_eq_missingRequired (tcols : ColMap) (cols : List String)
    (hreq : ∀ p ∈ tcols, p.2.required = (!p.2.nullable && isNoneV p.2.default)) :
    requiredAbsent tcols cols = missingRequired tcols cols := by
  unfold requiredAbsent missingRequired
  congr 1
  apply List.filter_congr
  intro p hp
  rw [hreq p hp]
  cases p.2.nullable <;> cases isNoneV p.2.default <;>
    cases cols.contains p.1 <;> rfl

/-- Claim C6 counterexample: the missing-required report is **not** produced
for every INSERT whose target table is known. With the schema
`{"t": {"id": required, "name": nullable}}` in which `name` has a null
declared type (as the normalizer produces for bare column names), validating
`INSERT INTO t (name) VALUES (x)` raises `AttributeError` in the casting step
(which runs before the missing-column return), so `id` is never reported. -/
theorem c6_missing_report_preempted_by_cast_crash :
    validate_and_cast_dml "INSERT INTO t (name) VALUES (x)"
      [("t", [("id", ⟨false, .none, .none, true⟩), ("name", ⟨true, .none, .none, false⟩)])]
      = .error PyErr.attributeError := rfl

/-- Claim C6 (amended): for every INSERT whose target table is in the schema
map and whose column/value lists are extracted, **provided the casting of the
supplied values returns** (equivalently, the call returns a result instead of
raising), every schema column marked required that is absent from the
supplied column list is reported: the result is `valid = false` with the
message listing exactly those columns in schema order, and this takes
precedence over the already-computed rewrite (the result carries the original
SQL, not the rewrite). -/
theorem insert_missing_required_reported :
    ∀ (sql : String) (schema_map : SchemaMap) (t : String) (tcols : ColMap)
      (g1 g2 : List Char) (r : ValidationResult),
      stmt_get_type sql = some StmtType.INSERT →
      extract_table_name sql StmtType.INSERT = some t →
      alGet schema_map t = some tcols →
      insertColsVals sql = some (g1, g2) →
      (∀ p ∈ tcols, p.2.required = (!p.2.nullable && isNoneV p.2.default)) →
      validate_and_cast_dml sql schema_map = .ok r →
      requiredAbsent tcols (insertCols g1) ≠ [] →
      r = ⟨false, "Missing required columns: " ++
        strJoin ", " (requiredAbsent tcols (insertCols g1)), sql⟩ := by
  intro sql schema_map t tcols g1 g2 r hTy hTbl hIn hCV hreq hOk hMiss
  have hne : sql ≠ "" := by
    intro he
    rw [he] at hTy
    exact absurd hTy (by decide)
  rw [requiredAbsent_eq_missingRequired tcols _ hreq] at hMiss ⊢
  simp only [validate_and_cast_dml, if_neg hne, hTy, hTbl, hIn, hCV] at hOk
  unfold insertBranch at hOk
  rcases hcp : castPairs tcols ((insertCols g1).zip (insertVals g2)) with e | casted
  · simp only [hcp] at hOk
    exact Except.noConfusion hOk
  · simp only [hcp] at hOk
    rw [if_pos hMiss] at hOk
    cases hOk
    rfl

/-- Witness for the C6 amended theorem: with string-typed columns the report
is produced, `valid = false`, message cites `id`, original SQL preserved. -/
theorem insert_missing_required_reported_witness :
    validate_and_cast_dml "INSERT INTO t (name) VALUES (x)"
      [("t", [("id", ⟨false, .none, .str "INTEGER", true⟩),
              ("name", ⟨true, .none, .str "TEXT", false⟩)])]
      = .ok ⟨false, "Missing required columns: id", "INSERT INTO t (name) VALUES (x)"⟩ := by
  have h := insert_missing_required_reported "INSERT INTO t (name) VALUES (x)"
    [("t", [("id", ⟨false, .none, .str "INTEGER", true⟩),
            ("name", ⟨true, .none, .str "TEXT", false⟩)])]
    "t" [("id", ⟨false, .none, .str "INTEGER", true⟩),
         ("name", ⟨true, .none, .str "TEXT", false⟩)]
    "name".data "x".data
    ⟨false, "Missing required columns: id", "INSERT INTO t (name) VALUES (x)"⟩
    rfl rfl rfl rfl (by decide) rfl (by decide)
  rw [h]
  rfl

/-! ### Claim C7 — shape-invariance of the normalizer -/

/-- Claim C7: for every table name `t` and column name `a`, the shapes
`{t:["a"]}` and `{"tables":{t:{"columns":["a"]}}}` normalize to the identical
canonical map with lower-cased keys and the `ColumnSpec`
`{nullable: true, default: None, type: None, required: false}`; the
column-record shape `{t:[{"name":"a"}]}` agrees whenever the name is
nonempty (an empty record name is skipped, while an empty bare name is
kept). -/
theorem normalize_shape_invariant :
    ∀ t a : String,
      normalize_schema (shapeSimple t a) = normalize_schema (shapeIndexed t a) ∧
      normalize_schema (shapeSimple t a)
        = .ok [(toLowerStr t, [(toLowerStr a, ⟨true, .none, .none, false⟩)])] ∧
      (a ≠ "" →
        normalize_schema (shapeDetailed t a) = normalize_schema (shapeSimple t a)) := by
  intro t a
  have hsimple : normalize_schema (shapeSimple t a)
      = .ok [(toLowerStr t, [(toLowerStr a, ⟨true, .none, .none, false⟩)])] := by
    by_cases ht : t = "tables" <;>
      simp [shapeSimple, normalize_schema, truthy, tablesItems, dGet, keyEqStr, ht,
        normTables, normTable, isNoneV, pyStr, alSetdefault, alGet, alSet,
        colsListOf, normColsList, normCol]
  refine ⟨?_, hsimple, ?_⟩
  · rw [hsimple]
    simp [shapeIndexed, normalize_schema, truthy, tablesItems, dGet, keyEqStr,
      normTables, normTable, isNoneV, pyStr, alSetdefault, alGet, alSet,
      colsListOf, normColsList, normCol]
  · intro ha
    rw [hsimple]
    by_cases ht : t = "tables" <;>
      simp [shapeDetailed, normalize_schema, truthy, tablesItems, dGet, keyEqStr, ht,
        normTables, normTable, isNoneV, pyStr, alSetdefault, alGet, alSet,
        colsListOf, normColsList, normCol, resolveName, dGetD, ha]

/-- Witness for the C7 theorem at concrete names (exercising the
record-shape part and its nonempty-name hypothesis). -/
theorem normalize_shape_invariant_witness :
    normalize_schema (shapeDetailed "T" "A") = normalize_schema (shapeSimple "T" "A") :=
  (normalize_shape_invariant "T" "A").2.2 (by decide)

/-! ### Claim C8 — when the normalizer fails -/

theorem normCol_ok_of_colOk (acc : ColMap) (c : PyVal) (hc : colOk c = true) :
    ∃ a2, normCol acc c = .ok a2 := by
  unfold normCol
  split
  · rename_i kvs
    split
    · exact ⟨acc, rfl⟩
    · rename_i hcond
      split
      · exact ⟨_, rfl⟩
      · rename_i hne
        exfalso
        have htr : truthy (resolveName kvs) = true := by
          revert hcond; cases truthy (resolveName kvs) <;> simp
        simp only [colOk, Bool.or_eq_true, htr, Bool.not_true] at hc
        rcases hc with hc | hc
        · exact absurd hc (by simp)
        · rcases hn : resolveName kvs with _ | b | n | s | xs | ys <;>
            rw [hn] at hc <;> simp only [isStrV] at hc
          · exact Bool.noConfusion hc
          · exact Bool.noConfusion hc
          · exact Bool.noConfusion hc
          · exact hne s hn
          · exact Bool.noConfusion hc
          · exact Bool.noConfusion hc
  · exact ⟨_, rfl⟩

theorem normColsList_ok_of_good (l : List PyVal) :
    ∀ acc, l.all colOk = true → ∃ m, normColsList acc l = .ok m := by
  induction l with
  | nil => exact fun acc _ => ⟨acc, rfl⟩
  | cons c rest ih =>
    intro acc hall
    simp only [List.all_cons, Bool.and_eq_true] at hall
    obtain ⟨m1, hm1⟩ := normCol_ok_of_colOk acc c hall.1
    unfold normColsList
    rw [hm1]
    exact ih m1 hall.2

theorem normTable_ok_of_good (acc : SchemaMap) (tn cols : PyVal)
    (h : (isNoneV tn || goodCols cols) = true) :
    ∃ m, normTable acc tn cols = .ok m := by
  unfold normTable
  rcases hN : isNoneV tn with _ | _
  · rw [hN] at h
    simp only [Bool.false_or] at h
    simp only [Bool.false_eq_true, if_false]
    unfold goodCols at h
    rcases hc : colsListOf cols with _ | l
    · simp [hc]
    · rw [hc] at h
      obtain ⟨m, hm⟩ := normColsList_ok_of_good l
        ((alGet (alSetdefault acc (toLowerStr (pyStr tn)) [])
          (toLowerStr (pyStr tn))).getD []) h
      simp [hc, hm]
  · simp [hN]

theorem normTables_ok_of_good (items : List (PyVal × PyVal)) :
    ∀ acc, (items.all fun p => isNoneV p.1 || goodCols p.2) = true →
      ∃ m, normTables acc items = .ok m := by
  induction items with
  | nil => exact fun acc _ => ⟨acc, rfl⟩
  | cons p rest ih =>
    intro acc hall
    simp only [List.all_cons, Bool.and_eq_true] at hall
    obtain ⟨hp, hrest⟩ := hall
    obtain ⟨m1, hm1⟩ := normTable_ok_of_good acc p.1 p.2 hp
    unfold normTables
    rw [hm1]
    exact ih m1 hrest

/-- Claim C8 counterexample: a **mapping** input on which `normalize` raises.
`{"t": [{"name": 5}]}` has a truthy non-string column name, so `name.lower()`
raises `AttributeError` — refuting both "raises exactly when the input is not
a mapping" and "for every mapping input it never fails". -/
theorem c8_mapping_input_raises :
    isDictV (PyVal.dict [(.str "t", .list [.dict [(.str "name", .int 5)]])]) = true ∧
    normalize_schema (PyVal.dict [(.str "t", .list [.dict [(.str "name", .int 5)]])])
      = .error PyErr.attributeError := ⟨rfl, rfl⟩

/-- Claim C8 (amended): `normalize` raises a `TypeError` exactly on truthy
non-mapping input; falsy input of any type (None, empty list, empty string,
zero, empty dict) short-circuits to the empty map without raising; and a
mapping input never fails **provided** every reachable column record has a
falsy or string name — null table names, nameless column records and
non-list column payloads are skipped, but a truthy non-string column name
raises `AttributeError`. -/
theorem normalize_failure_characterization :
    (∀ raw, truthy raw = false → normalize_schema raw = .ok []) ∧
    (∀ raw, truthy raw = true → isDictV raw = false →
      normalize_schema raw = .error PyErr.typeError) ∧
    (∀ raw, isDictV raw = true → goodRaw raw = true →
      ∃ m, normalize_schema raw = .ok m) := by
  refine ⟨?_, ?_, ?_⟩
  · intro raw hf
    simp [normalize_schema, hf]
  · intro raw ht hd
    cases raw <;> simp_all [normalize_schema, isDictV]
  · intro raw hd hg
    cases raw <;> simp_all [isDictV]
    rename_i kvs
    by_cases htr : truthy (PyVal.dict kvs) = true
    · unfold normalize_schema
      rw [htr]
      simp only [Bool.not_true, Bool.false_eq_true, if_false]
      exact normTables_ok_of_good (tablesItems kvs) [] hg
    · have hf : truthy (PyVal.dict kvs) = false := by
        revert htr; cases truthy (PyVal.dict kvs) <;> simp
      exact ⟨[], by simp [normalize_schema, hf]⟩

/-- Witness for the C8 amended theorem at concrete inputs. -/
theorem normalize_failure_characterization_witness :
    normalize_schema (PyVal.list [PyVal.int 1]) = .error PyErr.typeError ∧
    normalize_schema (PyVal.list []) = .ok [] ∧
    (∃ m, normalize_schema (PyVal.dict [(.str "t", .list [.str "a"])]) = .ok m) :=
  ⟨normalize_failure_characterization.2.1 (PyVal.list [PyVal.int 1]) (by decide) (by decide),
   normalize_failure_characterization.1 (PyVal.list []) (by decide),
   normalize_failure_characterization.2.2 (PyVal.dict [(.str "t", .list [.str "a"])])
     (by decide) (by decide)⟩

/-! ### Claim C4 — Confirm mutates session state iff it succeeds -/

/-- Claim C4: the Confirm operation mutates session state if and only if it
succeeds. Conjuncts: (1) any non-success outcome leaves the state unchanged;
(2)–(5) the four failure conditions are reported with their exact messages
and no mutation: no session, no exactly-matching SQL, matching entry not
requiring confirmation, matching entry already executed; (6) explicit
cancellation (`confirm = false`) only reports; (7) failed re-validation
against the freshly normalized schema only reports the validation message;
(8) a success sets `executed = true` on the (first) matching entry of the
user's session and changes nothing else in memory. -/
theorem confirm_mutates_iff_success :
    ∀ (execDml : String → Except Unit Int) (rawSchema : PyVal)
      (user_id sqlReq : String) (confirm : Bool) (st : AppState),
      (∀ st1 out, confirm_dml execDml rawSchema user_id sqlReq confirm st = (st1, out) →
        (∀ n, out ≠ .success n) → st1 = st) ∧
      (alGet st.memory user_id = Option.none →
        confirm_dml execDml rawSchema user_id sqlReq confirm st
          = (st, .error "No session history found for this user.")) ∧
      (∀ sess, alGet st.memory user_id = some sess →
        sess.history.find? (fun e => e.sql = sqlReq) = Option.none →
        confirm_dml execDml rawSchema user_id sqlReq confirm st
          = (st, .error "SQL not found in session history.")) ∧
      (∀ sess m, alGet st.memory user_id = some sess →
        sess.history.find? (fun e => e.sql = sqlReq) = some m →
        m.requires_confirmation = false →
        confirm_dml execDml rawSchema user_id sqlReq confirm st
          = (st, .error "This query does not require confirmation.")) ∧
      (∀ sess m, alGet st.memory user_id = some sess →
        sess.history.find? (fun e => e.sql = sqlReq) = some m →
        m.requires_confirmation = true → m.executed = true →
        confirm_dml execDml rawSchema user_id sqlReq confirm st
          = (st, .error "This query has already been executed.")) ∧
      (∀ sess m, alGet st.memory user_id = some sess →
        sess.history.find? (fun e => e.sql = sqlReq) = some m →
        m.requires_confirmation = true → m.executed = false → confirm = false →
        confirm_dml execDml rawSchema user_id sqlReq confirm st
          = (st, .msgOnly "DML query execution cancelled by user.")) ∧
      (∀ sess m sm v, alGet st.memory user_id = some sess →
        sess.history.find? (fun e => e.sql = sqlReq) = some m →
        m.requires_confirmation = true → m.executed = false → confirm = true →
        normalize_schema rawSchema = .ok sm →
        validate_and_cast_dml sqlReq sm = .ok v → v.valid = false →
        confirm_dml execDml rawSchema user_id sqlReq confirm st
          = (st, .msgOnly v.message)) ∧
      (∀ st1 n, confirm_dml execDml rawSchema user_id sqlReq confirm st
          = (st1, .success n) →
        ∃ sess, alGet st.memory user_id = some sess ∧
          st1.memory = alSet st.memory user_id
            { sess with history := markFirstExecuted sess.history sqlReq }) := by
  intro execDml rawSchema user_id sqlReq confirm st
  refine ⟨?_, ?_, ?_, ?_, ?_, ?_, ?_, ?_⟩
  · intro st1 out h hout
    unfold confirm_dml at h
    split at h
    · cases h; rfl
    · split at h
      · cases h; rfl
      · split at h
        · cases h; rfl
        · split at h
          · cases h; rfl
          · split at h
            · cases h; rfl
            · split at h
              · cases h; rfl
              · split at h
                · cases h; rfl
                · split at h
                  · cases h; rfl
                  · split at h
                    · cases h; rfl
                    · cases h
                      exact absurd rfl (hout _)
  · intro h
    simp [confirm_dml, h]
  · intro sess h1 h2
    simp [confirm_dml, h1, h2]
  · intro sess m h1 h2 h3
    simp [confirm_dml, h1, h2, h3]
  · intro sess m h1 h2 h3 h4
    simp [confirm_dml, h1, h2, h3, h4]
  · intro sess m h1 h2 h3 h4 h5
    simp [confirm_dml, h1, h2, h3, h4, h5]
  · intro sess m sm v h1 h2 h3 h4 h5 h6 h7 h8
    simp [confirm_dml, h1, h2, h3, h4, h5, h6, h7, h8]
  · intro st1 n hsucc
    unfold confirm_dml at hsucc
    split at hsucc
    · simp at hsucc
    · rename_i sess hsess
      refine ⟨sess, hsess, ?_⟩
      split at hsucc
      · simp at hsucc
      · split at hsucc
        · simp at hsucc
        · split at hsucc
          · simp at hsucc
          · split at hsucc
            · simp at hsucc
            · split at hsucc
              · simp at hsucc
              · split at hsucc
                · simp at hsucc
                · split at hsucc
                  · simp at hsucc
                  · split at hsucc
                    · simp at hsucc
                    · cases hsucc; rfl

/-- Witness for the C4 theorem: with an empty memory, Confirm fails with the
no-session report and does not change the state. -/
theorem confirm_mutates_iff_success_witness :
    confirm_dml (fun _ => .ok 0) PyVal.none "u" "X" true ⟨[], []⟩
      = (⟨[], []⟩, .error "No session history found for this user.") :=
  (confirm_mutates_iff_success (fun _ => .ok 0) PyVal.none "u" "X" true ⟨[], []⟩).2.1 rfl

/-! ### Claim C5 — at-most-once execution -/

theorem alGet_alSet_self {α : Type} (m : List (String × α)) (k : String) (v : α) :
    alGet (alSet m k v) k = some v := by
  induction m with
  | nil => simp [alSet, alGet]
  | cons p rest ih =>
    obtain ⟨k2, v2⟩ := p
    by_cases h : k2 = k
    · simp [alSet, alGet, h]
    · simp [alSet, alGet, h, ih]

theorem find_markFirstExecuted (l : List Entry) (s : String) (m : Entry)
    (h : l.find? (fun e => e.sql = s) = some m) :
    (markFirstExecuted l s).find? (fun e => e.sql = s)
      = some { m with executed := true } := by
  induction l with
  | nil => simp [List.find?] at h
  | cons e rest ih =>
    by_cases he : e.sql = s
    · simp [List.find?, he] at h
      subst h
      simp [markFirstExecuted, he, List.find?]
    · simp [List.find?, he] at h
      simp [markFirstExecuted, he, List.find?, ih h]

/-- Claim C5 counterexample: after a successful Confirm of
`INSERT INTO t (a) VALUES (NULL)`, a later Confirm of the same SQL text
**succeeds again** instead of failing with "already executed": the same
statement is re-proposed (a duplicate pending entry), nine reads evict the
executed entry by history trimming, and the second Confirm finds the
duplicate. The executor receives the rewritten statement twice. -/
theorem c5_second_execution_after_eviction :
    cexConfirm1.2 = .success 1 ∧
    cexConfirm2.2 = .success 1 ∧
    cexConfirm2.1.executedSqls.count "INSERT INTO t (a) VALUES (NULL);" = 2 :=
  ⟨rfl, rfl, rfl⟩

/-- Claim C5 (amended): an entry's `executed` flag is set only by a
successful Confirm, and **as long as the executed entry remains the first
history match for its SQL text**, every later Confirm attempt on that SQL
fails with the "already executed" rejection and mutates nothing — in
particular, immediately after a successful Confirm the next Confirm of the
same SQL (any collaborators, any confirm flag value) is always rejected.
If history trimming evicts the executed entry while a duplicate pending
entry with the same SQL survives, the statement can be executed a second
time. -/
theorem second_confirm_always_rejected :
    ∀ (execDml : String → Except Unit Int) (rawSchema : PyVal)
      (user_id sqlReq : String) (confirm : Bool) (st st1 : AppState) (n : Int)
      (execDml2 : String → Except Unit Int) (rawSchema2 : PyVal) (confirm2 : Bool),
      confirm_dml execDml rawSchema user_id sqlReq confirm st = (st1, .success n) →
      confirm_dml execDml2 rawSchema2 user_id sqlReq confirm2 st1
        = (st1, .error "This query has already been executed.") := by
  intro execDml rawSchema user_id sqlReq confirm st st1 n execDml2 rawSchema2 confirm2 h
  unfold confirm_dml at h
  split at h
  · simp at h
  · rename_i sess hsess
    split at h
    · simp at h
    · rename_i m hfind
      split at h
      · simp at h
      · rename_i hrc0
        have hrc : m.requires_confirmation = true := by
          revert hrc0; cases m.requires_confirmation <;> simp
        split at h
        · simp at h
        · split at h
          · simp at h
          · split at h
            · simp at h
            · split at h
              · simp at h
              · split at h
                · simp at h
                · split at h
                  · simp at h
                  · cases h
                    unfold confirm_dml
                    simp only [alGet_alSet_self,
                      find_markFirstExecuted sess.history sqlReq m hfind]
                    simp [hrc]

/-- Witness for the C5 amended theorem: in the concrete trace, the Confirm
immediately following the successful one is rejected as already executed. -/
theorem second_confirm_always_rejected_witness :
    confirm_dml cexExec cexSchema "u" cexDml true cexState2
      = (cexState2, .error "This query has already been executed.") :=
  second_confirm_always_rejected cexExec cexSchema "u" cexDml true cexState1 cexState2 1
    cexExec cexSchema true rfl

/-! ### Claim C3 — history eviction -/

/-- Claim C3 counterexample: ten reads fill the history to its bound of 10;
one more mutating proposal appends an 11th pending entry and **no trimming
happens** on that path — the history exceeds `maxHistory`. -/
theorem c3_dml_append_exceeds_max_history :
    ((alGet cexOverflow.memory "u").getD ⟨[], 0⟩).history.length = 11 ∧
    ((alGet cexOverflow.memory "u").getD ⟨[], 0⟩).max_history = 10 := ⟨rfl, rfl⟩

/-- Claim C3 (amended): eviction runs only on the read path. When the
proposal is non-mutating, the executed-read entry is appended and, whenever
the count then exceeds `maxHistory`, the oldest entries are dropped so that
exactly the most recent `maxHistory` remain in their original order
(`history[-maxHistory:]`). When the proposal is mutating, the pending entry
is appended with **no trimming**, so the count can exceed `maxHistory`. -/
theorem history_eviction_only_on_read_path :
    ∀ (chainInvoke : String → String → String → String → String)
      (jsonLoads : String → Option (String × List String))
      (validatorSays : String → String → Bool)
      (dbExec : String → List String) (histId : Nat) (rawSchema : PyVal)
      (docs : List (String × ℚ)) (query user_id : String) (st : AppState)
      (sm : SchemaMap) (mem1 : Memory) (res : ChainOut) (inner gsql : String)
      (sugg : List String) (sess : Session),
      normalize_schema rawSchema = .ok sm →
      run_sql_chain chainInvoke jsonLoads validatorSays (build_schema_text sm)
        query user_id docs st.memory = (mem1, res) →
      res.clarification_required = false →
      clean_llm_output res.sql = .ok inner →
      unwrapSql jsonLoads inner res.suggestions = (gsql, sugg) →
      alGet mem1 user_id = some sess →
      ((startsWithAnyCI DML_PREFIXES (pyStripL gsql.data) || res.requires_confirmation)
          = true →
        run_query chainInvoke jsonLoads validatorSays dbExec histId rawSchema docs
            query user_id st
          = ({ st with memory := alSet mem1 user_id ({ sess with history := sess.history ++ [⟨query, gsql, sugg, startsWithAnyCI DML_PREFIXES (pyStripL gsql.data), false⟩] }) },
             .needsConfirmation gsql sugg DEFAULT_DML_MESSAGE)) ∧
      ((startsWithAnyCI DML_PREFIXES (pyStripL gsql.data) || res.requires_confirmation)
          = false →
        run_query chainInvoke jsonLoads validatorSays dbExec histId rawSchema docs
            query user_id st
          = ({ memory := alSet mem1 user_id ({ sess with history := if (sess.history ++ [(⟨query, gsql, sugg, false, true⟩ : Entry)]).length > sess.max_history then pyLastSlice sess.max_history (sess.history ++ [(⟨query, gsql, sugg, false, true⟩ : Entry)]) else sess.history ++ [(⟨query, gsql, sugg, false, true⟩ : Entry)] }),
               executedSqls := st.executedSqls ++ [gsql] },
             .executed gsql (dbExec gsql) histId)) := by
  intro chainInvoke jsonLoads validatorSays dbExec histId rawSchema docs query user_id st
    sm mem1 res inner gsql sugg sess hnorm hchain hclar hclean hunw hsess
  constructor
  · intro hmut
    unfold run_query
    simp only [hnorm, hchain, hclar, hclean, hunw, hsess, Bool.false_eq_true, if_false,
      Option.getD_some, hmut, if_true]
  · intro hmut
    have h1 : startsWithAnyCI DML_PREFIXES (pyStripL gsql.data) = false := by
      revert hmut; cases startsWithAnyCI DML_PREFIXES (pyStripL gsql.data) <;> simp
    have h2 : res.requires_confirmation = false := by
      revert hmut; rw [h1]; cases res.requires_confirmation <;> simp
    unfold run_query
    simp only [hnorm, hchain, hclar, hclean, hunw, hsess, Bool.false_eq_true, if_false,
      Option.getD_some, h1, h2, Bool.or_self]

/-- Witness for the C3 amended theorem: a concrete first-turn mutating
proposal follows the pending-append equation of the mutating branch. -/
theorem history_eviction_only_on_read_path_witness :
    run_query cexChainDml cexJson cexValidator cexRows 1 cexSchema [] "q1" "u" ⟨[], []⟩
      = ({ memory := alSet [("u", ⟨[], 10⟩)] "u"
            ⟨[⟨"q1", cexDml, [], true, false⟩], 10⟩, executedSqls := [] },
         .needsConfirmation cexDml [] DEFAULT_DML_MESSAGE) := by
  have h := (history_eviction_only_on_read_path cexChainDml cexJson cexValidator cexRows 1
    cexSchema [] "q1" "u" ⟨[], []⟩
    [("t", [("a", ⟨true, .none, .str "TEXT", false⟩)])]
    [("u", ⟨[], 10⟩)]
    ⟨cexDml, [], false, true⟩ cexDml cexDml [] ⟨[], 10⟩
    rfl rfl rfl rfl rfl rfl).1 rfl
  exact h

/-! ### Claim C9 — mutating classification and the pending append -/

theorem dropWhile_dropWhile {α : Type} (p : α → Bool) (l : List α) :
    (l.dropWhile p).dropWhile p = l.dropWhile p := by
  induction l with
  | nil => rfl
  | cons a t ih =>
    by_cases h : p a
    · simp [List.dropWhile_cons, h, ih]
    · simp [List.dropWhile_cons, h]

theorem pyStripL_idem (l : List Char) : pyStripL (pyStripL l) = pyStripL l := by
  unfold pyStripL
  have hdw : (l.dropWhile isPySpace).dropWhile isPySpace = l.dropWhile isPySpace :=
    dropWhile_dropWhile isPySpace l
  have hpre : (l.dropWhile isPySpace).rdropWhile isPySpace <+: l.dropWhile isPySpace :=
    List.rdropWhile_prefix isPySpace (l.dropWhile isPySpace)
  have hstep : ((l.dropWhile isPySpace).rdropWhile isPySpace).dropWhile isPySpace
      = (l.dropWhile isPySpace).rdropWhile isPySpace := by
    rcases hr : (l.dropWhile isPySpace).rdropWhile isPySpace with _ | ⟨c, r2⟩
    · rfl
    · obtain ⟨t, ht⟩ := hpre
      rw [hr] at ht
      have hhd : (l.dropWhile isPySpace).head? = some c := by
        rw [← ht]; rfl
      have hc : isPySpace c = false := by
        have h0 := List.head?_dropWhile_not isPySpace l
        rw [hhd] at h0
        exact h0
      simp [List.dropWhile_cons, hc]
  rw [hstep, List.rdropWhile_idempotent]

theorem matchCI_congr (p : List Char) :
    ∀ (q : List Char), p.map Char.toLower = q.map Char.toLower →
      ∀ cs, matchCI p cs = matchCI q cs := by
  induction p with
  | nil =>
    intro q h cs
    cases q with
    | nil => rfl
    | cons b bs => simp at h
  | cons a as ih =>
    intro q h cs
    cases q with
    | nil => simp at h
    | cons b bs =>
      simp only [List.map_cons, List.cons.injEq] at h
      cases cs with
      | nil => rfl
      | cons c cs2 =>
        simp only [matchCI, h.1, ih bs h.2 cs2]

theorem startsWith3_imp_5 (cs : List Char)
    (h : startsWithAnyCI ["insert", "update", "delete"] cs = true) :
    startsWithAnyCI DML_PREFIXES cs = true := by
  simp only [startsWithAnyCI, List.any_eq_true] at h ⊢
  obtain ⟨p, hp, hmatch⟩ := h
  simp only [List.mem_cons, List.not_mem_nil, or_false] at hp
  rcases hp with hp | hp | hp <;> subst hp
  · exact ⟨"INSERT", by simp [DML_PREFIXES],
      by rw [startsWithCI, matchCI_congr "INSERT".data "insert".data (by decide)];
         exact hmatch⟩
  · exact ⟨"UPDATE", by simp [DML_PREFIXES],
      by rw [startsWithCI, matchCI_congr "UPDATE".data "update".data (by decide)];
         exact hmatch⟩
  · exact ⟨"DELETE", by simp [DML_PREFIXES],
      by rw [startsWithCI, matchCI_congr "DELETE".data "delete".data (by decide)];
         exact hmatch⟩

theorem matchCI_cons_head (p : Char) (ps : List Char) (c : Char) (cs : List Char)
    (h : (matchCI (p :: ps) (c :: cs)).isSome = true) :
    Char.toLower c = Char.toLower p := by
  by_cases hc : Char.toLower c = Char.toLower p
  · exact hc
  · simp [matchCI, hc] at h

theorem beq_backtick_false (c : Char) (a : Char) (hl : Char.toLower c = a)
    (ha : Char.toLower (Char.ofNat 96) ≠ a) : ((Char.ofNat 96) == c) = false := by
  by_cases h : Char.ofNat 96 = c
  · subst h
    exact absurd hl ha
  · simp [h]

theorem fence_prefix_false_of_dml (cs : List Char)
    (h : startsWithAnyCI ["insert", "update", "delete"] cs = true) :
    "```".data.isPrefixOf cs = false := by
  cases cs with
  | nil => exact absurd h (by decide)
  | cons c rest =>
    have hdec : "```".data = Char.ofNat 96 :: Char.ofNat 96 :: Char.ofNat 96 :: [] := rfl
    simp only [startsWithAnyCI, List.any_eq_true] at h
    obtain ⟨p, hp, hmatch⟩ := h
    simp only [List.mem_cons, List.not_mem_nil, or_false] at hp
    have hne : ((Char.ofNat 96) == c) = false := by
      rcases hp with hp | hp | hp <;> subst hp
      · have h1 : Char.toLower c = Char.toLower 'i' := by
          have he : "insert".data = 'i' :: "nsert".data := rfl
          rw [startsWithCI, he] at hmatch
          exact matchCI_cons_head _ _ _ _ hmatch
        exact beq_backtick_false c _ h1 (by decide)
      · have h1 : Char.toLower c = Char.toLower 'u' := by
          have he : "update".data = 'u' :: "pdate".data := rfl
          rw [startsWithCI, he] at hmatch
          exact matchCI_cons_head _ _ _ _ hmatch
        exact beq_backtick_false c _ h1 (by decide)
      · have h1 : Char.toLower c = Char.toLower 'd' := by
          have he : "delete".data = 'd' :: "elete".data := rfl
          rw [startsWithCI, he] at hmatch
          exact matchCI_cons_head _ _ _ _ hmatch
        exact beq_backtick_false c _ h1 (by decide)
    rw [hdec]
    simp [List.isPrefixOf, hne]

theorem clean_of_dml_prefix (s : String)
    (h : startsWithAnyCI ["insert", "update", "delete"] (pyStripL s.data) = true) :
    clean_llm_output s = .ok (pyStrip s) := by
  unfold clean_llm_output
  simp only [fence_prefix_false_of_dml (pyStripL s.data) h, Bool.false_and,
    Bool.false_eq_true, if_false]
  rfl

/-- In the chain's returned dict, `requires_confirmation` is exactly the
leading-keyword test on the (stripped, case-folded) returned SQL. -/
theorem run_sql_chain_rc
    (chainInvoke : String → String → String → String → String)
    (jsonLoads : String → Option (String × List String))
    (validatorSays : String → String → Bool)
    (schema_text user_query user_id : String)
    (docs : List (String × ℚ)) (memory : Memory) :
    (run_sql_chain chainInvoke jsonLoads validatorSays schema_text user_query user_id
        docs memory).2.requires_confirmation
      = startsWithAnyCI ["insert", "update", "delete"]
          (pyStripL (run_sql_chain chainInvoke jsonLoads validatorSays schema_text
            user_query user_id docs memory).2.sql.data) := rfl

/-- Claim C9: through the composed `/query` flow, a proposal is classified
as mutating **iff** its (unwrapped, stripped) SQL case-insensitively starts
with `INSERT`, `UPDATE`, `DELETE`, `MERGE` or `UPSERT`, or the chain flagged
`requires_confirmation`; every mutating proposal appends a pending entry
with `executed = false` and `requiresConfirmation = true` to the session
history and is returned to the caller, and nothing is executed on that path
(`executedSqls` unchanged); every non-mutating proposal is executed
immediately instead. The hypothesis on `jsonLoads` is the JSON-grammar fact
that no document starting (case-insensitively, after stripping) with
`insert`/`update`/`delete` parses — which is why the chain's flag always
coincides with a leading DML keyword after the unwrap. -/
theorem mutating_classification_and_pending_append :
    ∀ (chainInvoke : String → String → String → String → String)
      (jsonLoads : String → Option (String × List String))
      (validatorSays : String → String → Bool)
      (dbExec : String → List String) (histId : Nat) (rawSchema : PyVal)
      (docs : List (String × ℚ)) (query user_id : String) (st : AppState)
      (sm : SchemaMap) (mem1 : Memory) (res : ChainOut) (inner gsql : String)
      (sugg : List String) (sess : Session),
      (∀ s : String,
        startsWithAnyCI ["insert", "update", "delete"] (pyStripL s.data) = true →
        jsonLoads s = Option.none) →
      normalize_schema rawSchema = .ok sm →
      run_sql_chain chainInvoke jsonLoads validatorSays (build_schema_text sm)
        query user_id docs st.memory = (mem1, res) →
      res.clarification_required = false →
      clean_llm_output res.sql = .ok inner →
      unwrapSql jsonLoads inner res.suggestions = (gsql, sugg) →
      alGet mem1 user_id = some sess →
      ((startsWithAnyCI DML_PREFIXES (pyStripL gsql.data) || res.requires_confirmation)
          = true →
        startsWithAnyCI DML_PREFIXES (pyStripL gsql.data) = true ∧
        run_query chainInvoke jsonLoads validatorSays dbExec histId rawSchema docs
            query user_id st
          = ({ st with memory := alSet mem1 user_id ({ sess with history := sess.history ++ [⟨query, gsql, sugg, true, false⟩] }) },
             .needsConfirmation gsql sugg DEFAULT_DML_MESSAGE)) ∧
      ((startsWithAnyCI DML_PREFIXES (pyStripL gsql.data) || res.requires_confirmation)
          = false →
        run_query chainInvoke jsonLoads validatorSays dbExec histId rawSchema docs
            query user_id st
          = ({ memory := alSet mem1 user_id ({ sess with history := if (sess.history ++ [(⟨query, gsql, sugg, false, true⟩ : Entry)]).length > sess.max_history then pyLastSlice sess.max_history (sess.history ++ [(⟨query, gsql, sugg, false, true⟩ : Entry)]) else sess.history ++ [(⟨query, gsql, sugg, false, true⟩ : Entry)] }),
               executedSqls := st.executedSqls ++ [gsql] },
             .executed gsql (dbExec gsql) histId)) := by
  intro chainInvoke jsonLoads validatorSays dbExec histId rawSchema docs query user_id st
    sm mem1 res inner gsql sugg sess hJson hnorm hchain hclar hclean hunw hsess
  have hbranch := history_eviction_only_on_read_path chainInvoke jsonLoads validatorSays
    dbExec histId rawSchema docs query user_id st sm mem1 res inner gsql sugg sess
    hnorm hchain hclar hclean hunw hsess
  constructor
  · intro hmut
    have hdml : startsWithAnyCI DML_PREFIXES (pyStripL gsql.data) = true := by
      rcases Bool.or_eq_true_iff.mp hmut with hd | hrc
      · exact hd
      · have h0 := run_sql_chain_rc chainInvoke jsonLoads validatorSays
          (build_schema_text sm) query user_id docs st.memory
        rw [hchain] at h0
        have hrc3 : startsWithAnyCI ["insert", "update", "delete"]
            (pyStripL res.sql.data) = true := by rw [← h0]; exact hrc
        have hclean2 : clean_llm_output res.sql = .ok (pyStrip res.sql) :=
          clean_of_dml_prefix res.sql hrc3
        rw [hclean] at hclean2
        have hinner : inner = pyStrip res.sql := by
          injection hclean2
        have hid : inner.data = pyStripL res.sql.data := by rw [hinner]; rfl
        have hj : jsonLoads inner = Option.none := by
          apply hJson inner
          rw [hid, pyStripL_idem]
          exact hrc3
        have hg : gsql = pyStrip inner := by
          unfold unwrapSql at hunw
          rw [hj] at hunw
          exact (congrArg Prod.fst hunw).symm
        have hgd : pyStripL gsql.data = pyStripL res.sql.data := by
          rw [hg]
          show pyStripL (pyStripL inner.data) = pyStripL res.sql.data
          rw [pyStripL_idem, hid, pyStripL_idem]
        rw [hgd]
        exact startsWith3_imp_5 (pyStripL res.sql.data) hrc3
    refine ⟨hdml, ?_⟩
    have h1 := hbranch.1 (by rw [hdml]; rfl)
    rw [h1, hdml]
  · intro hmut
    exact hbranch.2 hmut

/-- Witness for the C9 theorem at a concrete input: a first-turn mutating
proposal is appended as pending (`executed = false`,
`requiresConfirmation = true`) and nothing is executed. -/
theorem mutating_classification_and_pending_append_witness :
    run_query cexChainDml cexJson cexValidator cexRows 1 cexSchema [] "q1" "u" ⟨[], []⟩
      = ({ memory := [("u", ⟨[⟨"q1", cexDml, [], true, false⟩], 10⟩)],
           executedSqls := [] },
         .needsConfirmation cexDml [] DEFAULT_DML_MESSAGE) := by
  have h := ((mutating_classification_and_pending_append cexChainDml cexJson cexValidator
    cexRows 1 cexSchema [] "q1" "u" ⟨[], []⟩
    [("t", [("a", ⟨true, .none, .str "TEXT", false⟩)])]
    [("u", ⟨[], 10⟩)]
    ⟨cexDml, [], false, true⟩ cexDml cexDml [] ⟨[], 10⟩
    (fun _ _ => rfl) rfl rfl rfl rfl rfl rfl).1 rfl).2
  rw [h]
  rfl
